import Mathlib

/-!
Verification development for a Telegram onboarding bot (`src/bot/app.py`) and
its reconciliation poller (`src/puller/app.py`, `src/puller/app copy.py`).

The Python code is shallowly embedded: MongoDB collections become Lean lists of
documents, `$set`-based `update_one(..., upsert=True)` becomes replace-first-or-
append on those lists, and the regular expressions used by the input validators
are translated to explicit character-class checks.  Python's `re` module matches
`\d` against every Unicode decimal digit; the embedding restricts that class to
the repertoires actually reachable in this system (ASCII digits, Arabic-Indic
digits U+0660..U+0669 and Extended Arabic-Indic digits U+06F0..U+06F9).
Python's `str.strip` / `\s` are modelled with an explicit
`pyStrip` / `Char.isWhitespace`.  User-facing Persian message texts are abbreviated to
short ASCII stand-ins; no claim depends on the exact text of an error message.
-/

/-- Conversation states, from class `States` (identical in both apps). -/
inductive States where
  | START
  | NAME
  | PHONE
  | CAPITAL
  | UID
  | WAITING_PAYMENT
  | COMPLETED
  | CANCELLED
deriving DecidableEq, Repr, BEq

/-- A document of the `users` collection (one Session per chat identity).
Fields that a document may lack are `Option`s; `updated_at` is always set by
every writer in the source. -/
structure UserDoc where
  chat_id : Nat
  state : States
  name : Option String := none
  phone : Option String := none
  capital : Option String := none
  uid : Option String := none
  balanceVolume : Option Rat := none
  payment_confirmed_at : Option Nat := none
  created_at : Option Nat := none
  updated_at : Nat := 0
deriving DecidableEq, Repr

/-- The `data` dict passed to `DatabaseManager.update_user_data`: the set of
collected fields this write adds to the `$set` document.  A `none` field is
absent from the dict (hence the stored field is left untouched). -/
structure Patch where
  name : Option String := none
  phone : Option String := none
  capital : Option String := none
  uid : Option String := none
deriving DecidableEq, Repr

/-- `$set` semantics for one optional field: a field present in the patch
overwrites, an absent one leaves the old value. -/
def setOpt {α : Type} (new old : Option α) : Option α :=
  match new with
  | some v => some v
  | none => old

/-- Python's `str.strip`: drop whitespace from both ends. -/
def pyStrip (s : String) : String :=
  ((s.toList.dropWhile Char.isWhitespace).reverse.dropWhile
    Char.isWhitespace).reverse.asString

/-- An inbound Telegram message: optional text and optional contact payload
(the contact's phone number).  `handle_update` returns early unless both
`update.message` and `update.effective_chat` exist, so the embedding starts
from a present message. -/
structure Msg where
  text : Option String := none
  contact : Option String := none
deriving DecidableEq, Repr

/-- The outbound reply produced by one call to `handle_update`, abstracted to
which branch of the source produced it.  Validation errors carry their
human-readable reason. -/
inductive Reply where
  | welcomeStart
  | cancelledOp
  | unknownCommand
  | promptStart
  | nameOk (n : String)
  | nameErr (e : String)
  | phoneOk
  | phoneErr (e : String)
  | capitalOk
  | capitalRetry
  | uidOk
  | uidErr (e : String)
  | stillWaiting
  | alreadyCompleted
  | wasCancelled
deriving DecidableEq, Repr

/-- `find_one({"chat_id": chat_id})`: first document with this key. -/
def findUser (users : List UserDoc) (chat : Nat) : Option UserDoc :=
  users.find? (fun u => u.chat_id == chat)

namespace Bot

/-- `DatabaseManager.get_user_state`: the stored state, or `START` when the
document is absent. -/
def get_user_state (users : List UserDoc) (chat : Nat) : States :=
  match findUser users chat with
  | some u => u.state
  | none => States.START

/-- The fresh document base used when `update_user_data` upserts a chat with no
existing document: only `chat_id` and `created_at` are predetermined; every
collected field is absent. -/
def freshUser (chat now : Nat) : UserDoc :=
  { chat_id := chat, state := States.START, created_at := some now,
    updated_at := now }

/-- The `$set` document of `DatabaseManager.update_user_data` applied to a base
document: `chat_id` is unchanged (it equals the filter key), `state` and
`updated_at` are overwritten, patch fields overwrite where present. -/
def applyPatch (u : UserDoc) (st : States) (p : Patch) (now : Nat) : UserDoc :=
  { u with
    state := st
    updated_at := now
    name := setOpt p.name u.name
    phone := setOpt p.phone u.phone
    capital := setOpt p.capital u.capital
    uid := setOpt p.uid u.uid }

/-- `DatabaseManager.update_user_data`: `update_one({"chat_id": chat}, {"$set":
update_data}, upsert=True)` -- replace the first matching document, or append a
new one built from the fresh base. -/
def update_user_data (users : List UserDoc) (chat : Nat) (st : States)
    (p : Patch) (now : Nat) : List UserDoc :=
  match users with
  | [] => [applyPatch (freshUser chat now) st p now]
  | u :: rest =>
    if u.chat_id = chat then applyPatch u st p now :: rest
    else u :: update_user_data rest chat st p now

/-- Python digit class `\d`, restricted to the repertoires reachable here:
ASCII, Arabic-Indic (U+0660..U+0669) and Extended Arabic-Indic
(U+06F0..U+06F9) decimal digits. -/
def pyDigit (c : Char) : Bool :=
  c.isDigit || (0x660 ≤ c.toNat && c.toNat ≤ 0x669)
    || (0x6F0 ≤ c.toNat && c.toNat ≤ 0x6F9)

/-- Character class of `validate_name`'s regex `[آ-یa-zA-Z\s]`: the contiguous
Unicode range U+0622..U+06CC (a raw range, covering the Persian alphabet but
also Arabic diacritics, Arabic-Indic digits and some Arabic punctuation),
ASCII letters, or whitespace. -/
def nameClassChar (c : Char) : Bool :=
  (0x622 ≤ c.toNat && c.toNat ≤ 0x6CC)
    || (0x61 ≤ c.toNat && c.toNat ≤ 0x7A)
    || (0x41 ≤ c.toNat && c.toNat ≤ 0x5A)
    || c.isWhitespace

/-- Full-match test of `^[آ-یa-zA-Z\s]{2,30}$` on an already-stripped string:
length between 2 and 30 and every character in the class. -/
def nameShapeCode (s : String) : Bool :=
  2 ≤ s.toList.length && s.toList.length ≤ 30 && s.toList.all nameClassChar

/-- `InputValidator.validate_name`. -/
def validate_name (name : String) : Except String String :=
  if pyStrip name = "" then Except.error "name must not be empty"
  else
    let clean := pyStrip name
    if nameShapeCode clean then Except.ok clean
    else Except.error "name must be 2 to 30 letters"

/-- Characters kept by `re.sub(r'[^\d+]', '', ...)`: digits and every plus
sign, wherever it occurs. -/
def phoneCleanChar (c : Char) : Bool := pyDigit c || c == '+'

/-- The cleaned phone string of `validate_phone`. -/
def phoneClean (s : String) : String :=
  ((pyStrip s).toList.filter phoneCleanChar).asString

/-- Length of the leading run of digits of a character list. -/
def leadingDigits : List Char → Nat
  | [] => 0
  | c :: cs => if pyDigit c then leadingDigits cs + 1 else 0

/-- `re.match(r'^\+?\d{10,15}', s)` succeeds iff, after an optional leading
plus sign, the string starts with at least 10 consecutive digits (the pattern
is not end-anchored, so longer digit runs and trailing junk still match). -/
def phoneRegexMatch (s : String) : Bool :=
  match s.toList with
  | '+' :: rest => 10 ≤ leadingDigits rest
  | cs => 10 ≤ leadingDigits cs

/-- `InputValidator.validate_phone`. -/
def validate_phone (phone : String) : Except String String :=
  if pyStrip phone = "" then Except.error "phone must not be empty"
  else
    let clean := phoneClean phone
    if phoneRegexMatch clean then Except.ok clean
    else Except.error "enter a valid phone of at least 10 digits"

/-- ASCII alphanumeric class `[a-zA-Z0-9]`. -/
def asciiAlnum (c : Char) : Bool :=
  (0x30 ≤ c.toNat && c.toNat ≤ 0x39)
    || (0x41 ≤ c.toNat && c.toNat ≤ 0x5A)
    || (0x61 ≤ c.toNat && c.toNat ≤ 0x7A)

/-- Length of the leading alphanumeric run. -/
def leadingAlnum : List Char → Nat
  | [] => 0
  | c :: cs => if asciiAlnum c then leadingAlnum cs + 1 else 0

/-- `re.match(r'^[a-zA-Z0-9]{6,20}', s)`: at least 6 leading alphanumerics
(unanchored at the end). -/
def uidRegexMatch (s : String) : Bool := 6 ≤ leadingAlnum s.toList

/-- `InputValidator.validate_uid`. -/
def validate_uid (uid : String) : Except String String :=
  if pyStrip uid = "" then Except.error "uid must not be empty"
  else
    let clean := pyStrip uid
    if uidRegexMatch clean then Except.ok clean
    else Except.error "uid must be 6 to 20 alphanumerics"

/-- `fa_to_eng_number`: translate Extended Arabic-Indic digits U+06F0..U+06F9
to ASCII digits. -/
def fa_to_eng_number (s : String) : String :=
  (s.toList.map fun c =>
    if 0x6F0 ≤ c.toNat && c.toNat ≤ 0x6F9 then
      Char.ofNat (c.toNat - 0x6F0 + 0x30)
    else c).asString

/-- The five enumerated capital-band labels of `_handle_capital_input`. -/
def valid_capital_options : List String :=
  ["۱- زیر ۱۰ میلیون", "۲- ۱۰ تا ۳۰ میلیون", "۳- ۳۰ تا ۱۰۰ میلیون",
   "۴- ۱۰۰ تا ۵۰۰ میلیون", "۵- بالای ۵۰۰ میلیون"]

/-- `TelegramBot._handle_name_input`. -/
def handle_name_input (users : List UserDoc) (chat : Nat) (text : String)
    (now : Nat) : List UserDoc × Reply :=
  match validate_name text with
  | Except.ok n =>
    (update_user_data users chat States.PHONE { name := some n } now,
      Reply.nameOk n)
  | Except.error e => (users, Reply.nameErr e)

/-- The phone source of `_handle_phone_input`: the structured contact payload
when present, else the message text. -/
def contactOrText (m : Msg) : String :=
  match m.contact with
  | some c => c
  | none => m.text.getD ""

/-- `TelegramBot._handle_phone_input`: the number comes from the structured
contact payload when present, else from the message text. -/
def handle_phone_input (users : List UserDoc) (chat : Nat) (m : Msg)
    (now : Nat) : List UserDoc × Reply :=
  match validate_phone (contactOrText m) with
  | Except.ok p =>
    (update_user_data users chat States.CAPITAL { phone := some p } now,
      Reply.phoneOk)
  | Except.error e => (users, Reply.phoneErr e)

/-- `TelegramBot._handle_capital_input`. -/
def handle_capital_input (users : List UserDoc) (chat : Nat) (text : String)
    (now : Nat) : List UserDoc × Reply :=
  if valid_capital_options.contains text then
    (update_user_data users chat States.UID { capital := some text } now,
      Reply.capitalOk)
  else (users, Reply.capitalRetry)

/-- `TelegramBot._handle_uid_input`. -/
def handle_uid_input (users : List UserDoc) (chat : Nat) (text : String)
    (now : Nat) : List UserDoc × Reply :=
  let t := fa_to_eng_number (pyStrip text)
  match validate_uid t with
  | Except.ok u =>
    (update_user_data users chat States.WAITING_PAYMENT { uid := some u } now,
      Reply.uidOk)
  | Except.error e => (users, Reply.uidErr e)

/-- `message_text.startswith('/')`: the text begins with the command prefix. -/
def isCommand (s : String) : Bool :=
  match s.data with
  | '/' :: _ => true
  | _ => false

/-- `TelegramBot.handle_update`: commands (text starting with a slash) are
dispatched first, uniformly in every state; otherwise the message is routed by
the stored state.  With the state enumeration total there is no unknown-state
branch to model. -/
def handle_update (users : List UserDoc) (chat : Nat) (m : Msg) (now : Nat) :
    List UserDoc × Reply :=
  let text := m.text.getD ""
  if isCommand text then
    if text = "/start" then
      (update_user_data users chat States.NAME {} now, Reply.welcomeStart)
    else if text = "/cancel" then
      (update_user_data users chat States.CANCELLED {} now, Reply.cancelledOp)
    else (users, Reply.unknownCommand)
  else
    match get_user_state users chat with
    | States.START => (users, Reply.promptStart)
    | States.NAME => handle_name_input users chat text now
    | States.PHONE => handle_phone_input users chat m now
    | States.CAPITAL => handle_capital_input users chat text now
    | States.UID => handle_uid_input users chat text now
    | States.WAITING_PAYMENT => (users, Reply.stillWaiting)
    | States.COMPLETED => (users, Reply.alreadyCompleted)
    | States.CANCELLED => (users, Reply.wasCancelled)

end Bot

/-- A session sitting in `WAITING_PAYMENT`, used to exercise the waiting-state
handler. -/
def usersWaiting : List UserDoc :=
  [{ chat_id := 7, state := States.WAITING_PAYMENT, name := some "Ali",
     phone := some "+989121234567", uid := some "AB12345" }]

/-- A completed session holding all collected fields, to be reset. -/
def usersCompleted : List UserDoc :=
  [{ chat_id := 3, state := States.COMPLETED, name := some "Ali",
     phone := some "+989121234567", capital := some "c2",
     uid := some "AB12345", balanceVolume := some 25,
     payment_confirmed_at := some 9 }]

/-- A chat sitting in the `NAME` state with nothing collected yet. -/
def usersAtName : List UserDoc :=
  [{ chat_id := 1, state := States.NAME, created_at := some 0 }]

/-- The Persian alphabet, spelled out letter by letter, as the spec's
"letters of the Persian or Latin alphabet" shape demands.  Modelled from the
spec's words, for comparison with the source's raw character range. -/
def specPersianAlphabet : List Char :=
  ['آ', 'ا', 'ب', 'پ', 'ت', 'ث', 'ج', 'چ', 'ح', 'خ', 'د', 'ذ', 'ر', 'ز',
   'ژ', 'س', 'ش', 'ص', 'ض', 'ط', 'ظ', 'ع', 'غ', 'ف', 'ق', 'ک', 'گ', 'ل',
   'م', 'ن', 'و', 'ه', 'ی']

/-- The name shape the claim states: 2 to 30 characters, Persian or Latin
letters and whitespace only.  Modelled from the spec for the refutation. -/
def specNameShape (s : String) : Bool :=
  2 ≤ s.toList.length && s.toList.length ≤ 30 &&
    s.toList.all fun c =>
      specPersianAlphabet.contains c
        || (0x61 ≤ c.toNat && c.toNat ≤ 0x7A)
        || (0x41 ≤ c.toNat && c.toNat ≤ 0x5A)
        || c.isWhitespace

/-- A chat sitting in the `PHONE` state. -/
def usersAtPhone : List UserDoc :=
  [{ chat_id := 1, state := States.PHONE, name := some "Ali",
     created_at := some 0 }]

/-- One execution of `TelegramBot.get_updates_and_process` after a nonempty
fetch: walk the batch in order, attempt `handle_update` on each event and --
whether it succeeds (`true`) or raises and is skipped (`false`) -- advance the
in-memory OFFSET to that event's identifier plus one; the final OFFSET is
persisted after the batch.  The result is the persisted OFFSET and the trace
of attempted events with their outcome. -/
def get_updates_and_process (handle : Nat → Bool) :
    Nat → List Nat → Nat × List (Nat × Bool)
  | OFFSET, [] => (OFFSET, [])
  | _, uid :: rest =>
    let r := get_updates_and_process handle (uid + 1) rest
    (r.1, (uid, handle uid) :: r.2)

/-- The outcome of the `GET /time` call in `APIClient.get_server_time`:
either a decoded JSON body whose `serverTime` field may be absent, or an
exception (network failure, HTTP error or JSON-decode failure). -/
inductive TimeResp where
  | ok (serverTime : Option Int)
  | exn
deriving DecidableEq, Repr

/-- `APIClient.get_server_time`: `r.json().get("serverTime", -1)` inside a
try/except whose handler returns `int(time.time() * 1000)`. -/
def get_server_time (r : TimeResp) (localMs : Int) : Int :=
  match r with
  | TimeResp.ok st => st.getD (-1)
  | TimeResp.exn => localMs

/-- The params dict of one page request of the pagination loops, before the
signature is appended: `pageIndex`, `pageSize` and the `timestamp` obtained
from `get_server_time`. -/
def pageParams (pageIndex pageSize : Nat) (timestamp : Int) :
    List (String × Int) :=
  [("pageIndex", (pageIndex : Int)), ("pageSize", (pageSize : Int)),
   ("timestamp", timestamp)]

/-- The payload of one record of the external `inviteUserList` API (the
ExternalAccount).  Fields a record may lack are `Option`s; everything the
claims need is kept, further provider attributes are pass-through and
untouched by the code. -/
structure InviteUser where
  uid : Option String := none
  id : Option String := none
  balanceVolume : Option Rat := none
  registerTime : Option Int := none
deriving DecidableEq, Repr

/-- Python truthiness of an optional string: `None` and the empty string are
falsy. -/
def truthyStr : Option String → Option String
  | some s => if s = "" then none else some s
  | none => none

/-- `user.get("uid") or user.get("id")`, as consumed through `if user_id:`
guards: the first truthy of the two keys, if any. -/
def userIdOf (u : InviteUser) : Option String :=
  match truthyStr u.uid with
  | some s => some s
  | none => truthyStr u.id

/-- A stored document of the `invite_users` collection: the key it is filed
under (the `uid` field used by the unique index), the accumulated payload
fields, and `updated_at`. -/
structure InviteDoc where
  uid : String
  data : InviteUser
  updated_at : Nat
deriving DecidableEq, Repr

/-- `$set {**user, "updated_at": now}` on the payload fields: fields present
in the payload overwrite, absent ones keep the stored value. -/
def mergeInvite (old new : InviteUser) : InviteUser :=
  { uid := setOpt new.uid old.uid
    id := setOpt new.id old.id
    balanceVolume := setOpt new.balanceVolume old.balanceVolume
    registerTime := setOpt new.registerTime old.registerTime }

/-- `UpdateOne({"uid": k}, {"$set": {**user, "updated_at": t}}, upsert=True)`:
replace the first document filed under `k`, else insert a new one whose `uid`
comes from the filter. -/
def upsertInviteGo : List InviteDoc → String → InviteUser → Nat →
    List InviteDoc
  | [], k, u, t => [⟨k, mergeInvite {} u, t⟩]
  | d :: rest, k, u, t =>
    if d.uid = k then ⟨k, mergeInvite d.data u, t⟩ :: rest
    else d :: upsertInviteGo rest k u t

/-- `InviteUsersDatabase.batch_upsert_users`: one `UpdateOne` upsert per
payload record holding a truthy uid-or-id, applied in order (records without
a key are skipped with `continue`). -/
def batch_upsert_users (store : List InviteDoc) (users : List InviteUser)
    (t : Nat) : List InviteDoc :=
  users.foldl
    (fun s u =>
      match userIdOf u with
      | none => s
      | some k => upsertInviteGo s k u t)
    store

/-- A concrete ExternalAccount payload for the C7 witness. -/
def invW : InviteUser := { uid := some "AB12345", balanceVolume := some 25 }

/-- `InviteUsersDatabase.get_user_by_uid`: first stored invite document under
the key. -/
def get_user_by_uid (inv : List InviteDoc) (uidv : String) :
    Option InviteUser :=
  (inv.find? (fun d => d.uid == uidv)).map InviteDoc.data

/-- The `$set` document of `UsersDatabase.update_user_state_to_completed`
applied to a stored session: state `COMPLETED`, the observed balance, a
payment-confirmation timestamp and `updated_at`. -/
def completedDoc (u : UserDoc) (bal : Rat) (now : Nat) : UserDoc :=
  { u with
    state := States.COMPLETED
    balanceVolume := some bal
    payment_confirmed_at := some now
    updated_at := now }

/-- `UsersDatabase.update_user_state_to_completed`: `update_one` on the first
document matching the chat, returning `modified_count > 0` -- true exactly
when a document matched and the `$set` changed it. -/
def update_user_state_to_completed (users : List UserDoc) (cid : Nat)
    (bal : Rat) (now : Nat) : List UserDoc × Bool :=
  match users with
  | [] => ([], false)
  | u :: rest =>
    if u.chat_id = cid then
      (completedDoc u bal now :: rest, decide (completedDoc u bal now ≠ u))
    else
      let r := update_user_state_to_completed rest cid bal now
      (u :: r.1, r.2)

/-- The body of the loop of `PaymentProcessor.process_waiting_payment_users`
for one snapshot session `bu`: skip when the session has no truthy uid or no
invite document exists; otherwise compare `float(invite_user.get(
"balanceVolume", 0))` against the threshold 18; at or above it, run the state
update and -- only when it reports a modification -- count the session as
completed and (when the notifier bot is configured) send one completion
message.  Returns the updated store, the optional notified chat, and the
increment of `completed_count`. -/
def process_one_waiting (hasBot : Bool) (inv : List InviteDoc)
    (users : List UserDoc) (bu : UserDoc) (now : Nat) :
    List UserDoc × Option Nat × Nat :=
  match truthyStr bu.uid with
  | none => (users, none, 0)
  | some uidv =>
    match get_user_by_uid inv uidv with
    | none => (users, none, 0)
    | some iu =>
      let bal := iu.balanceVolume.getD 0
      if 18 ≤ bal then
        let r := update_user_state_to_completed users bu.chat_id bal now
        if r.2 then (r.1, if hasBot then some bu.chat_id else none, 1)
        else (r.1, none, 0)
      else (users, none, 0)

/-- Result of one reconciliation sweep: the users store, the chats a
completion message was sent to (in order), and `completed_count`. -/
structure SweepResult where
  users : List UserDoc
  notifs : List Nat
  completed : Nat
deriving DecidableEq, Repr

/-- The sweep loop over the snapshot list of waiting sessions. -/
def sweepGo (hasBot : Bool) (inv : List InviteDoc) (now : Nat) :
    List UserDoc → List UserDoc → List Nat → Nat → SweepResult
  | [], users, ns, k => ⟨users, ns, k⟩
  | bu :: W, users, ns, k =>
    let r := process_one_waiting hasBot inv users bu now
    sweepGo hasBot inv now W r.1 (ns ++ r.2.1.toList) (k + r.2.2)

/-- `PaymentProcessor.process_waiting_payment_users`: snapshot every session
currently in `WAITING_PAYMENT`, then process each in order. -/
def process_waiting_payment_users (hasBot : Bool) (inv : List InviteDoc)
    (users : List UserDoc) (now : Nat) : SweepResult :=
  sweepGo hasBot inv now
    (users.filter (fun u => u.state == States.WAITING_PAYMENT)) users [] 0

/-- The ExternalAccount a waiting session is linked to: the stored invite
document under the session's truthy uid, if any. -/
def linkedAccount (inv : List InviteDoc) (u : UserDoc) : Option InviteUser :=
  match truthyStr u.uid with
  | none => none
  | some uidv => get_user_by_uid inv uidv

/-- The final document a sweep leaves for a waiting session, by the source's
branches: untouched without a linked ExternalAccount, promoted exactly when
the observed balance reaches the threshold 18. -/
def expectedDoc (inv : List InviteDoc) (u : UserDoc) (now : Nat) : UserDoc :=
  match linkedAccount inv u with
  | none => u
  | some iu =>
    if 18 ≤ iu.balanceVolume.getD 0 then
      completedDoc u (iu.balanceVolume.getD 0) now
    else u

/-- How many completion messages the sweep sends for a waiting session: one on
promotion, none otherwise. -/
def expectedNotifCount (inv : List InviteDoc) (u : UserDoc) : Nat :=
  match linkedAccount inv u with
  | none => 0
  | some iu => if 18 ≤ iu.balanceVolume.getD 0 then 1 else 0

/-- The invite store holding the account the C1 witness session links to. -/
def invSweep : List InviteDoc :=
  [⟨"AB12345", { uid := some "AB12345", balanceVolume := some 25 }, 0⟩]

/-- The users store of the C1 witness: one waiting session linked to the
stored account. -/
def usersSweep : List UserDoc :=
  [{ chat_id := 42, state := States.WAITING_PAYMENT, name := some "Ali",
     uid := some "AB12345" }]

/-- One successfully decoded page of `APIClient.fetch_all_users`: the `list`
of records (empty also models a missing `data`/`list` key) and the optional
provider-reported `total`. -/
structure FPage where
  list : List InviteUser
  total : Option Nat
deriving DecidableEq, Repr

/-- The hard-coded dedup short-circuit of `fetch_all_users`: stop after 10
consecutive already-known records. -/
def consecutive_existing_threshold : Nat := 10

/-- The per-page record walk of `fetch_all_users` (with a database manager
present): a known record increments the running consecutive-existing counter
and is dropped; an unknown record resets the counter to zero and is kept; a
record without a truthy uid-or-id is kept without touching the counter.
Returns the page's new records and the counter after the page. -/
def processItems (known : String → Bool) :
    List InviteUser → Nat → List InviteUser × Nat
  | [], c => ([], c)
  | it :: rest, c =>
    match userIdOf it with
    | some uidv =>
      if known uidv then processItems known rest (c + 1)
      else
        let r := processItems known rest 0
        (it :: r.1, r.2)
    | none =>
      let r := processItems known rest c
      (it :: r.1, r.2)

/-- The pagination loop of `fetch_all_users` over the successive page
responses, carrying the accumulated new records and the consecutive-existing
counter.  Stops after a page when: the page's list is empty; or the counter
reached the threshold; or the page contributed no new records; or the
accumulated count reached the provider total (defaulting to the accumulated
count itself when the response lacks `total`, which always stops).  Returns
the accumulated records and how many pages were fetched. -/
def fetchGo (known : String → Bool) :
    List FPage → List InviteUser → Nat → List InviteUser × Nat
  | [], allData, _ => (allData, 0)
  | p :: rest, allData, counter =>
    if p.list.isEmpty then (allData, 1)
    else
      let pr := processItems known p.list counter
      if consecutive_existing_threshold ≤ pr.2 then (allData ++ pr.1, 1)
      else
        let allData2 := allData ++ pr.1
        if pr.1.isEmpty then (allData2, 1)
        else
          let total := p.total.getD allData2.length
          if total ≤ allData2.length then (allData2, 1)
          else
            let r := fetchGo known rest allData2 pr.2
            (r.1, r.2 + 1)

/-- `APIClient.fetch_all_users` (the `app copy.py` variant, with the invite
database manager present): start at page 1 with nothing accumulated and a
zero counter. -/
def fetch_all_users (known : String → Bool) (pages : List FPage) :
    List InviteUser × Nat :=
  fetchGo known pages [] 0

/-- Dedup knowledge of the C6 scenario: five records are already known. -/
def knownFive : String → Bool := fun s =>
  ["e1", "e2", "e3", "e4", "e5"].contains s

/-- A page made of exactly those five already-known records, with a large
provider total. -/
def pageKnown : FPage :=
  ⟨[{ uid := some "e1" }, { uid := some "e2" }, { uid := some "e3" },
    { uid := some "e4" }, { uid := some "e5" }], some 1000⟩

/-- A page holding one unknown record, with a large provider total. -/
def pageNext : FPage := ⟨[{ uid := some "n1" }], some 1000⟩

namespace Bot

theorem applyPatch_chat_id (u : UserDoc) (st : States) (p : Patch) (now : Nat) :
    (applyPatch u st p now).chat_id = u.chat_id := rfl

/-- After `update_user_data`, looking the chat up finds the patched document
(built from the previously stored one, or from the fresh base). -/
theorem findUser_update_user_data (users : List UserDoc) (chat : Nat)
    (st : States) (p : Patch) (now : Nat) :
    findUser (update_user_data users chat st p now) chat =
      some (applyPatch
        (match findUser users chat with
         | some u => u
         | none => freshUser chat now) st p now) := by
  induction users with
  | nil => simp [findUser, update_user_data, List.find?, applyPatch, freshUser]
  | cons u rest ih =>
    by_cases h : u.chat_id = chat
    · simp [findUser, update_user_data, h, List.find?, applyPatch]
    · simp only [update_user_data, if_neg h]
      simpa [findUser, List.find?_cons, h] using ih

/-- The state stored for the written chat is the requested one. -/
theorem get_user_state_update (users : List UserDoc) (chat : Nat) (st : States)
    (p : Patch) (now : Nat) :
    get_user_state (update_user_data users chat st p now) chat = st := by
  simp [get_user_state, findUser_update_user_data, applyPatch]

/-- An empty `data` dict leaves every collected field as it was. -/
theorem applyPatch_empty (u : UserDoc) (st : States) (now : Nat) :
    applyPatch u st {} now = { u with state := st, updated_at := now } := rfl

end Bot

/-- C2 (amended): in `WAITING_PAYMENT`, any non-command inbound message (text
not starting with the command prefix, including contact-only messages) yields
the static still-waiting reply and leaves the store untouched; command
messages are dispatched before state routing and are therefore excluded. -/
theorem c2_amended_waiting_noncommand_static (users : List UserDoc)
    (chat : Nat) (m : Msg) (now : Nat)
    (hst : Bot.get_user_state users chat = States.WAITING_PAYMENT)
    (hcmd : ¬ Bot.isCommand (m.text.getD "") = true) :
    Bot.handle_update users chat m now = (users, Reply.stillWaiting) := by
  unfold Bot.handle_update
  simp only [if_neg hcmd, hst]

/-- C2 witness: a concrete waiting session receiving plain text keeps its
state and gets the still-waiting reply. -/
theorem c2_witness :
    Bot.get_user_state usersWaiting 7 = States.WAITING_PAYMENT ∧
    Bot.handle_update usersWaiting 7 { text := some "hello" } 1 =
      (usersWaiting, Reply.stillWaiting) :=
  ⟨rfl, c2_amended_waiting_noncommand_static usersWaiting 7
    { text := some "hello" } 1 rfl (by decide)⟩

/-- C2 counterexample: the inbound message `/start` moves a `WAITING_PAYMENT`
session to `NAME`, so inbound chat events can move a session out of
`WAITING_PAYMENT`, contradicting the claim that only the reconciliation
engine does. -/
theorem c2_counterexample :
    Bot.get_user_state usersWaiting 7 = States.WAITING_PAYMENT ∧
    Bot.get_user_state
      (Bot.handle_update usersWaiting 7 { text := some "/start" } 1).1 7 =
      States.NAME := ⟨rfl, rfl⟩

/-- C4 (amended): the `/start` command resets the session state to `NAME` and
stamps `updated_at`, but does NOT clear previously collected fields: the
`$set` update writes only `chat_id`, `state` and `updated_at`, so name, phone
number, capital band and external account identifier survive from any earlier
onboarding attempt.  A chat with no session gets a fresh document whose
collected fields are all absent. -/
theorem c4_amended_start_resets_state_only (users : List UserDoc)
    (chat now : Nat) :
    Bot.get_user_state
      (Bot.handle_update users chat { text := some "/start" } now).1 chat =
      States.NAME ∧
    (∀ u : UserDoc, findUser users chat = some u →
      findUser (Bot.handle_update users chat { text := some "/start" } now).1
          chat =
        some { u with state := States.NAME, updated_at := now }) ∧
    (findUser users chat = none →
      findUser (Bot.handle_update users chat { text := some "/start" } now).1
          chat =
        some { Bot.freshUser chat now with
               state := States.NAME, updated_at := now }) := by
  have hred : (Bot.handle_update users chat { text := some "/start" } now).1 =
      Bot.update_user_data users chat States.NAME {} now := rfl
  refine ⟨?_, ?_, ?_⟩
  · rw [hred]; exact Bot.get_user_state_update users chat States.NAME {} now
  · intro u hu
    rw [hred, Bot.findUser_update_user_data, hu, Bot.applyPatch_empty]
  · intro hu
    rw [hred, Bot.findUser_update_user_data, hu, Bot.applyPatch_empty]

/-- C4 witness: on a session holding collected fields, `/start` produces the
predicted document (state reset, fields retained). -/
theorem c4_witness :
    findUser usersCompleted 3 =
      some { chat_id := 3, state := States.COMPLETED, name := some "Ali",
             phone := some "+989121234567", capital := some "c2",
             uid := some "AB12345", balanceVolume := some 25,
             payment_confirmed_at := some 9 } ∧
    findUser (Bot.handle_update usersCompleted 3 { text := some "/start" } 1).1
        3 =
      some { chat_id := 3, state := States.NAME, name := some "Ali",
             phone := some "+989121234567", capital := some "c2",
             uid := some "AB12345", balanceVolume := some 25,
             payment_confirmed_at := some 9, updated_at := 1 } :=
  ⟨rfl, (c4_amended_start_resets_state_only usersCompleted 3 1).2.1 _ rfl⟩

/-- On shape success the stripped name is nonempty, so `validate_name`
returns it. -/
theorem validate_name_of_shape {t : String}
    (h : Bot.nameShapeCode (pyStrip t) = true) :
    Bot.validate_name t = Except.ok (pyStrip t) := by
  have hne : ¬ pyStrip t = "" := by
    intro he; rw [he] at h; exact absurd h (by decide)
  simp [Bot.validate_name, hne, h]

/-- On shape failure `validate_name` reports an error (empty input or shape
violation). -/
theorem validate_name_of_not_shape {t : String}
    (h : Bot.nameShapeCode (pyStrip t) = false) :
    ∃ e, Bot.validate_name t = Except.error e := by
  by_cases he : pyStrip t = ""
  · exact ⟨"name must not be empty", by simp [Bot.validate_name, he]⟩
  · exact ⟨"name must be 2 to 30 letters", by simp [Bot.validate_name, he, h]⟩

/-- Routing a non-command text in the `NAME` state reaches the name handler. -/
theorem handle_update_name_route (users : List UserDoc) (chat now : Nat)
    (t : String) (hst : Bot.get_user_state users chat = States.NAME)
    (hcmd : ¬ Bot.isCommand t = true) :
    Bot.handle_update users chat { text := some t } now =
      Bot.handle_name_input users chat t now := by
  have hcmd' :
      ¬ Bot.isCommand ((({ text := some t } : Msg)).text.getD "") = true := hcmd
  unfold Bot.handle_update
  rw [if_neg hcmd', hst]
  rfl

/-- C8 (amended): in the `NAME` state, a non-command input whose stripped form
matches the code's shape -- 2 to 30 characters drawn from the contiguous
Unicode range U+0622..U+06CC (which contains the Persian alphabet but also
Arabic-Indic digits, diacritics and some punctuation), ASCII letters and
whitespace -- moves the session `NAME → PHONE` and persists the stripped
name; an input violating that shape produces a `ValidationError` reason and
leaves the store unchanged.  (The spec's narrower "letters only" shape is
refuted by `c8_counterexample`.) -/
theorem c8_amended_name_input_spec (users : List UserDoc) (chat now : Nat)
    (t : String)
    (hst : Bot.get_user_state users chat = States.NAME)
    (hcmd : ¬ Bot.isCommand t = true) :
    (Bot.nameShapeCode (pyStrip t) = true →
      Bot.handle_update users chat { text := some t } now =
        (Bot.update_user_data users chat States.PHONE
          { name := some (pyStrip t) } now, Reply.nameOk (pyStrip t)) ∧
      Bot.get_user_state
          (Bot.handle_update users chat { text := some t } now).1 chat =
        States.PHONE ∧
      (findUser (Bot.handle_update users chat { text := some t } now).1
          chat).map UserDoc.name = some (some (pyStrip t))) ∧
    (Bot.nameShapeCode (pyStrip t) = false →
      ∃ e, Bot.handle_update users chat { text := some t } now =
        (users, Reply.nameErr e)) := by
  have hru := handle_update_name_route users chat now t hst hcmd
  constructor
  · intro hshape
    have hv := validate_name_of_shape hshape
    have hmain : Bot.handle_update users chat { text := some t } now =
        (Bot.update_user_data users chat States.PHONE
          { name := some (pyStrip t) } now, Reply.nameOk (pyStrip t)) := by
      rw [hru]; unfold Bot.handle_name_input; rw [hv]
    refine ⟨hmain, ?_, ?_⟩
    · rw [hmain]
      exact Bot.get_user_state_update users chat States.PHONE _ now
    · rw [hmain]
      simp [Bot.findUser_update_user_data, Bot.applyPatch, setOpt]
  · intro hshape
    obtain ⟨e, hv⟩ := validate_name_of_not_shape hshape
    refine ⟨e, ?_⟩
    rw [hru]; unfold Bot.handle_name_input; rw [hv]

/-- C8 witness: on a fresh `NAME`-state session, the valid input `"Ali"`
transitions to `PHONE` with the name stored. -/
theorem c8_witness :
    Bot.get_user_state usersAtName 1 = States.NAME ∧
    Bot.nameShapeCode (pyStrip "Ali") = true ∧
    Bot.get_user_state
        (Bot.handle_update usersAtName 1 { text := some "Ali" } 2).1 1 =
      States.PHONE ∧
    (findUser (Bot.handle_update usersAtName 1 { text := some "Ali" } 2).1
        1).map UserDoc.name = some (some "Ali") :=
  ⟨rfl, rfl,
    ((c8_amended_name_input_spec usersAtName 1 2 "Ali" rfl
      (by decide)).1 rfl).2.1,
    ((c8_amended_name_input_spec usersAtName 1 2 "Ali" rfl
      (by decide)).1 rfl).2.2⟩

/-- C8 counterexample: the two-character string of Arabic-Indic digits four
and two (U+0664 U+0662) violates the claimed letters-only shape, yet the code
accepts it: the session transitions `NAME → PHONE` and the digits are stored
as the name, instead of the claimed `ValidationError` with no change. -/
theorem c8_counterexample :
    specNameShape "٤٢" = false ∧
    Bot.validate_name "٤٢" = Except.ok "٤٢" ∧
    Bot.get_user_state
        (Bot.handle_update usersAtName 1 { text := some "٤٢" } 2).1 1 =
      States.PHONE ∧
    (findUser (Bot.handle_update usersAtName 1 { text := some "٤٢" } 2).1
        1).map UserDoc.name = some (some "٤٢") := by
  refine ⟨by decide, rfl, ?_, ?_⟩ <;> decide

/-- C4 counterexample: after `/start` on a completed session the state is
`NAME` but the stored name and external account identifier are still the old
ones, refuting the claim that the session then holds no previously collected
fields. -/
theorem c4_counterexample :
    Bot.get_user_state
      (Bot.handle_update usersCompleted 3 { text := some "/start" } 1).1 3 =
      States.NAME ∧
    (findUser (Bot.handle_update usersCompleted 3 { text := some "/start" } 1).1
        3).map UserDoc.name = some (some "Ali") ∧
    (findUser (Bot.handle_update usersCompleted 3 { text := some "/start" } 1).1
        3).map UserDoc.uid = some (some "AB12345") := ⟨rfl, rfl, rfl⟩

/-- On a match of the phone pattern, `validate_phone` returns the whole
cleaned string. -/
theorem validate_phone_of_match {t : String} (hne : ¬ pyStrip t = "")
    (h : Bot.phoneRegexMatch (Bot.phoneClean t) = true) :
    Bot.validate_phone t = Except.ok (Bot.phoneClean t) := by
  simp [Bot.validate_phone, hne, h]

/-- On an empty input or a pattern failure, `validate_phone` errors. -/
theorem validate_phone_of_not_match {t : String}
    (h : pyStrip t = "" ∨ Bot.phoneRegexMatch (Bot.phoneClean t) = false) :
    ∃ e, Bot.validate_phone t = Except.error e := by
  by_cases he : pyStrip t = ""
  · exact ⟨"phone must not be empty", by simp [Bot.validate_phone, he]⟩
  · rcases h with h | h
    · exact absurd h he
    · exact ⟨"enter a valid phone of at least 10 digits",
        by simp [Bot.validate_phone, he, h]⟩

/-- Routing a non-command message in the `PHONE` state reaches the phone
handler. -/
theorem handle_update_phone_route (users : List UserDoc) (chat now : Nat)
    (m : Msg) (hst : Bot.get_user_state users chat = States.PHONE)
    (hcmd : ¬ Bot.isCommand (m.text.getD "") = true) :
    Bot.handle_update users chat m now =
      Bot.handle_phone_input users chat m now := by
  unfold Bot.handle_update
  rw [if_neg hcmd, hst]

/-- C3 (amended): in the `PHONE` state the stored phone number is the trimmed
input with every character other than a digit or a plus sign removed -- every
plus sign is kept, wherever it occurs, not only a leading one -- and
validation succeeds exactly when, after an optional leading plus sign, the
cleaned string starts with at least 10 consecutive digits (the pattern is not
end-anchored, so there is no 15-digit upper bound).  On success the session
transitions to `CAPITAL` with the cleaned string stored; on failure the store
is unchanged and the user is re-prompted with an error reason. -/
theorem c3_amended_phone_input_spec (users : List UserDoc) (chat now : Nat)
    (m : Msg)
    (hst : Bot.get_user_state users chat = States.PHONE)
    (hcmd : ¬ Bot.isCommand (m.text.getD "") = true) :
    ((¬ pyStrip (Bot.contactOrText m) = "" ∧
        Bot.phoneRegexMatch (Bot.phoneClean (Bot.contactOrText m)) = true) →
      Bot.handle_update users chat m now =
        (Bot.update_user_data users chat States.CAPITAL
          { phone := some (Bot.phoneClean (Bot.contactOrText m)) } now,
         Reply.phoneOk) ∧
      Bot.get_user_state (Bot.handle_update users chat m now).1 chat =
        States.CAPITAL ∧
      (findUser (Bot.handle_update users chat m now).1 chat).map
          UserDoc.phone =
        some (some (Bot.phoneClean (Bot.contactOrText m)))) ∧
    ((pyStrip (Bot.contactOrText m) = "" ∨
        Bot.phoneRegexMatch (Bot.phoneClean (Bot.contactOrText m)) = false) →
      ∃ e, Bot.handle_update users chat m now = (users, Reply.phoneErr e)) := by
  have hru := handle_update_phone_route users chat now m hst hcmd
  constructor
  · rintro ⟨hne, hmatch⟩
    have hv := validate_phone_of_match hne hmatch
    have hmain : Bot.handle_update users chat m now =
        (Bot.update_user_data users chat States.CAPITAL
          { phone := some (Bot.phoneClean (Bot.contactOrText m)) } now,
         Reply.phoneOk) := by
      rw [hru]; unfold Bot.handle_phone_input; rw [hv]
    refine ⟨hmain, ?_, ?_⟩
    · rw [hmain]
      exact Bot.get_user_state_update users chat States.CAPITAL _ now
    · rw [hmain]
      simp [Bot.findUser_update_user_data, Bot.applyPatch, setOpt]
  · intro h
    obtain ⟨e, hv⟩ := validate_phone_of_not_match h
    refine ⟨e, ?_⟩
    rw [hru]; unfold Bot.handle_phone_input; rw [hv]

/-- C3 witness: a structured contact payload with a leading plus sign and 12
digits is accepted and stored, moving the session to `CAPITAL`. -/
theorem c3_witness :
    Bot.get_user_state usersAtPhone 1 = States.PHONE ∧
    Bot.phoneClean "+989121234567" = "+989121234567" ∧
    Bot.get_user_state
        (Bot.handle_update usersAtPhone 1 { contact := some "+989121234567" }
          2).1 1 = States.CAPITAL ∧
    (findUser (Bot.handle_update usersAtPhone 1
        { contact := some "+989121234567" } 2).1 1).map UserDoc.phone =
      some (some "+989121234567") :=
  ⟨rfl, rfl,
    ((c3_amended_phone_input_spec usersAtPhone 1 2
        { contact := some "+989121234567" } rfl (by decide)).1
      ⟨by decide, by decide⟩).2.1,
    ((c3_amended_phone_input_spec usersAtPhone 1 2
        { contact := some "+989121234567" } rfl (by decide)).1
      ⟨by decide, by decide⟩).2.2⟩

/-- C3 counterexample: a 17-digit input has more than 15 digits yet validates
and is stored verbatim (the regex is not end-anchored), and an input with a
non-leading plus sign keeps that plus sign in the stored value (contradicting
"stripped except a leading plus").  The 17-digit input moves the session to
`CAPITAL`. -/
theorem c3_counterexample :
    (Bot.phoneClean "12345678901234567").toList.countP Bot.pyDigit = 17 ∧
    Bot.validate_phone "12345678901234567" =
      Except.ok "12345678901234567" ∧
    Bot.validate_phone "12345678901+23" = Except.ok "12345678901+23" ∧
    Bot.get_user_state
        (Bot.handle_update usersAtPhone 1
          { text := some "12345678901234567" } 2).1 1 = States.CAPITAL := by
  refine ⟨by decide, rfl, rfl, by decide⟩

/-- C5: under the platform contract that a fetch with offset `OFFSET` returns
only events with identifier at least `OFFSET`, in strictly increasing order,
one execution of the inbound batch loop never decreases the persisted Cursor,
advances it past every event of the batch -- also past events whose
processing failed and was skipped -- and attempts every event of the batch
exactly once, in order, before the Cursor moves past it. -/
theorem c5_cursor_monotone_accounted (handle : Nat → Bool) (OFFSET : Nat)
    (batch : List Nat)
    (hlo : ∀ id ∈ batch, OFFSET ≤ id)
    (hinc : batch.Pairwise (· < ·)) :
    OFFSET ≤ (get_updates_and_process handle OFFSET batch).1 ∧
    (∀ id ∈ batch, id < (get_updates_and_process handle OFFSET batch).1) ∧
    (get_updates_and_process handle OFFSET batch).2 =
      batch.map fun uid => (uid, handle uid) := by
  induction batch generalizing OFFSET with
  | nil => simp [get_updates_and_process]
  | cons uid rest ih =>
    have hrest_lo : ∀ id ∈ rest, uid + 1 ≤ id := by
      intro id hid
      exact (List.pairwise_cons.mp hinc).1 id hid
    have hrest_inc : rest.Pairwise (· < ·) := (List.pairwise_cons.mp hinc).2
    obtain ⟨h1, h2, h3⟩ := ih (uid + 1) hrest_lo hrest_inc
    have huid : OFFSET ≤ uid := hlo uid (List.mem_cons_self uid rest)
    refine ⟨?_, ?_, ?_⟩
    · exact le_trans huid (le_trans (Nat.le_succ uid) h1)
    · intro id hid
      rcases List.mem_cons.mp hid with h | h
      · subst h
        exact lt_of_lt_of_le (Nat.lt_succ_self id) h1
      · exact h2 id h
    · simpa [get_updates_and_process] using h3

/-- C5 witness: offset 3, batch with identifiers 5 and 7 where event 7 fails
and is skipped; the Cursor still ends past both events. -/
theorem c5_witness :
    3 ≤ (get_updates_and_process (fun uid => uid != 7) 3 [5, 7]).1 ∧
    (∀ id ∈ [5, 7],
      id < (get_updates_and_process (fun uid => uid != 7) 3 [5, 7]).1) ∧
    (get_updates_and_process (fun uid => uid != 7) 3 [5, 7]).2 =
      [(5, true), (7, false)] := by
  obtain ⟨h1, h2, h3⟩ := c5_cursor_monotone_accounted (fun uid => uid != 7) 3
    [5, 7] (by decide) (by decide)
  exact ⟨h1, h2, by simpa using h3⟩

/-- C9: a `/time` response that decodes without raising but lacks the
`serverTime` field makes `get_server_time` return -1, and that -1 is the
timestamp parameter of the signed page request; the local wall-clock
fallback is used exactly when the call raises. -/
theorem c9_server_time_fallback (localMs : Int) (pageIndex pageSize : Nat) :
    get_server_time (TimeResp.ok none) localMs = -1 ∧
    ("timestamp", (-1 : Int)) ∈
      pageParams pageIndex pageSize
        (get_server_time (TimeResp.ok none) localMs) ∧
    (∀ t : Int, get_server_time (TimeResp.ok (some t)) localMs = t) ∧
    get_server_time TimeResp.exn localMs = localMs := by
  refine ⟨rfl, ?_, fun t => rfl, rfl⟩
  simp [pageParams, get_server_time]

/-- After an upsert, the first document under the key holds the merged
payload and the new timestamp. -/
theorem find_upsertInviteGo (s : List InviteDoc) (k : String)
    (u : InviteUser) (t : Nat) :
    (upsertInviteGo s k u t).find? (fun d => d.uid == k) =
      some ⟨k,
        mergeInvite
          (match s.find? (fun d => d.uid == k) with
           | some d => d.data
           | none => {}) u, t⟩ := by
  induction s with
  | nil => simp [upsertInviteGo, List.find?]
  | cons d rest ih =>
    by_cases h : d.uid = k
    · simp [upsertInviteGo, h, List.find?]
    · simp only [upsertInviteGo, if_neg h]
      simpa [List.find?_cons, h] using ih

/-- An upsert touches only the stored key list when the key is present, and
appends the key otherwise. -/
theorem map_uid_upsertInviteGo (s : List InviteDoc) (k : String)
    (u : InviteUser) (t : Nat) :
    (upsertInviteGo s k u t).map InviteDoc.uid =
      (match s.find? (fun d => d.uid == k) with
       | some _ => s.map InviteDoc.uid
       | none => s.map InviteDoc.uid ++ [k]) := by
  induction s with
  | nil => simp [upsertInviteGo, List.find?]
  | cons d rest ih =>
    by_cases h : d.uid = k
    · simp [upsertInviteGo, h, List.find?]
    · simp only [upsertInviteGo, if_neg h]
      rw [List.find?_cons_of_neg _ (by simp [h])]
      cases hfind : rest.find? (fun d => d.uid == k) with
      | some d0 =>
        simp only [hfind] at ih
        simp [ih]
      | none =>
        simp only [hfind] at ih
        simp [ih]

/-- Under the unique index (at most one stored document per key), an upsert
leaves exactly one document under the key. -/
theorem countP_upsertInviteGo (s : List InviteDoc) (k : String)
    (u : InviteUser) (t : Nat)
    (huniq : s.countP (fun d => d.uid == k) ≤ 1) :
    (upsertInviteGo s k u t).countP (fun d => d.uid == k) = 1 := by
  induction s with
  | nil => simp [upsertInviteGo, List.countP, List.countP.go]
  | cons d rest ih =>
    by_cases h : d.uid = k
    · have hrest : rest.countP (fun d => d.uid == k) = 0 := by
        have h2 : (d :: rest).countP (fun d => d.uid == k) =
            rest.countP (fun d => d.uid == k) + 1 := by
          simp [List.countP_cons, h]
        omega
      have : ∀ x ∈ rest, ¬ (x.uid == k) = true := by
        intro x hx
        exact (List.countP_eq_zero.mp hrest) x hx
      simp [upsertInviteGo, h, List.countP_cons,
        List.countP_eq_zero.mpr this]
    · have huniq' : rest.countP (fun d => d.uid == k) ≤ 1 := by
        rw [List.countP_cons] at huniq
        omega
      simp [upsertInviteGo, if_neg h, List.countP_cons, h, ih huniq']

/-- Overwriting with the same patch field twice equals overwriting once. -/
theorem setOpt_idem {α : Type} (n o : Option α) :
    setOpt n (setOpt n o) = setOpt n o := by
  cases n <;> rfl

/-- Merging the same payload twice is the same as merging it once. -/
theorem mergeInvite_idem (x u : InviteUser) :
    mergeInvite (mergeInvite x u) u = mergeInvite x u := by
  simp [mergeInvite, setOpt_idem]

/-- C7: ingesting the same ExternalAccount payload twice through
`batch_upsert_users` yields exactly one stored document for that account key
(given the unique index held before), the stored key set is unchanged by the
second ingestion, and the surviving document carries the second ingestion's
timestamp with field values on which re-applying the payload is a no-op (the
second ingestion's values won). -/
theorem c7_batch_upsert_idempotent (store : List InviteDoc) (u : InviteUser)
    (t1 t2 : Nat) (k : String) (hk : userIdOf u = some k)
    (huniq : store.countP (fun d => d.uid == k) ≤ 1) :
    (batch_upsert_users (batch_upsert_users store [u] t1) [u] t2).countP
        (fun d => d.uid == k) = 1 ∧
    (batch_upsert_users (batch_upsert_users store [u] t1) [u] t2).map
        InviteDoc.uid = (batch_upsert_users store [u] t1).map InviteDoc.uid ∧
    ∃ d0 : InviteUser,
      (batch_upsert_users store [u] t1).find? (fun d => d.uid == k) =
        some ⟨k, d0, t1⟩ ∧
      (batch_upsert_users (batch_upsert_users store [u] t1) [u] t2).find?
          (fun d => d.uid == k) = some ⟨k, d0, t2⟩ ∧
      mergeInvite d0 u = d0 := by
  have hb : ∀ (s : List InviteDoc) (t : Nat),
      batch_upsert_users s [u] t = upsertInviteGo s k u t := by
    intro s t
    simp [batch_upsert_users, hk]
  have e1 : batch_upsert_users store [u] t1 = upsertInviteGo store k u t1 :=
    hb store t1
  have e2 : batch_upsert_users (batch_upsert_users store [u] t1) [u] t2 =
      upsertInviteGo (batch_upsert_users store [u] t1) k u t2 := hb _ t2
  have hf1 := find_upsertInviteGo store k u t1
  have hc1 : (upsertInviteGo store k u t1).countP (fun d => d.uid == k) = 1 :=
    countP_upsertInviteGo store k u t1 huniq
  refine ⟨?_, ?_, ?_⟩
  · rw [e2]
    exact countP_upsertInviteGo _ k u t2 (by rw [e1, hc1])
  · rw [e2, map_uid_upsertInviteGo, e1, hf1]
  · refine ⟨mergeInvite
      (match store.find? (fun d => d.uid == k) with
       | some d => d.data
       | none => {}) u, ?_, ?_, mergeInvite_idem _ u⟩
    · rw [e1]; exact hf1
    · rw [e2, find_upsertInviteGo, e1, hf1]
      simp [mergeInvite_idem]

/-- C7 witness: ingesting the payload twice into an empty store leaves one
document and the same key list as after the first ingestion. -/
theorem c7_witness :
    (batch_upsert_users (batch_upsert_users [] [invW] 1) [invW] 2).countP
        (fun d => d.uid == "AB12345") = 1 ∧
    (batch_upsert_users (batch_upsert_users [] [invW] 1) [invW] 2).map
        InviteDoc.uid = (batch_upsert_users [] [invW] 1).map InviteDoc.uid :=
  ⟨(c7_batch_upsert_idempotent [] invW 1 2 "AB12345" rfl (by decide)).1,
   (c7_batch_upsert_idempotent [] invW 1 2 "AB12345" rfl (by decide)).2.1⟩

/-- Promoting a waiting session changes the document (the state differs). -/
theorem completedDoc_ne {u : UserDoc} (h : u.state = States.WAITING_PAYMENT)
    (bal : Rat) (now : Nat) : completedDoc u bal now ≠ u := by
  intro he
  have hs := congrArg UserDoc.state he
  simp only [completedDoc] at hs
  rw [h] at hs
  exact absurd hs (by decide)

/-- The completion update touches no document of another chat. -/
theorem findUser_update_completed_ne (users : List UserDoc) (cid cid' : Nat)
    (bal : Rat) (now : Nat) (h : cid' ≠ cid) :
    findUser (update_user_state_to_completed users cid bal now).1 cid' =
      findUser users cid' := by
  induction users with
  | nil => rfl
  | cons u rest ih =>
    by_cases hc : u.chat_id = cid
    · simp only [update_user_state_to_completed, if_pos hc]
      unfold findUser
      rw [List.find?_cons_of_neg _ (by simp [completedDoc, hc, Ne.symm h]),
        List.find?_cons_of_neg _ (by simp [hc, Ne.symm h])]
    · simp only [update_user_state_to_completed, if_neg hc]
      by_cases hc' : u.chat_id = cid'
      · unfold findUser
        rw [List.find?_cons_of_pos _ (by simp [hc']),
          List.find?_cons_of_pos _ (by simp [hc'])]
      · unfold findUser
        rw [List.find?_cons_of_neg _ (by simp [hc']),
          List.find?_cons_of_neg _ (by simp [hc'])]
        exact ih

/-- When the chat's first document is `u`, the completion update rewrites it
to the completed document and reports a modification exactly when the
document changed. -/
theorem update_completed_hit (users : List UserDoc) (cid : Nat) (bal : Rat)
    (now : Nat) (u : UserDoc) (hf : findUser users cid = some u) :
    findUser (update_user_state_to_completed users cid bal now).1 cid =
      some (completedDoc u bal now) ∧
    (update_user_state_to_completed users cid bal now).2 =
      decide (completedDoc u bal now ≠ u) := by
  induction users with
  | nil => simp [findUser, List.find?] at hf
  | cons v rest ih =>
    by_cases hc : v.chat_id = cid
    · have hv : v = u := by
        have := hf
        unfold findUser at this
        rw [List.find?_cons_of_pos _ (by simp [hc])] at this
        exact Option.some.inj this
      subst hv
      constructor
      · simp only [update_user_state_to_completed, if_pos hc]
        unfold findUser
        rw [List.find?_cons_of_pos _ (by simp [completedDoc, hc])]
      · simp [update_user_state_to_completed, if_pos hc]
    · have hf' : findUser rest cid = some u := by
        have := hf
        unfold findUser at this
        rwa [List.find?_cons_of_neg _ (by simp [hc])] at this
      obtain ⟨ih1, ih2⟩ := ih hf'
      constructor
      · simp only [update_user_state_to_completed, if_neg hc]
        unfold findUser
        rw [List.find?_cons_of_neg _ (by simp [hc])]
        exact ih1
      · simpa [update_user_state_to_completed, if_neg hc] using ih2

/-- When no stored document matches the chat, the completion update changes
nothing and reports no modification (`modified_count` is zero). -/
theorem update_completed_nomatch (users : List UserDoc) (cid : Nat)
    (bal : Rat) (now : Nat) (h : ∀ v ∈ users, v.chat_id ≠ cid) :
    update_user_state_to_completed users cid bal now = (users, false) := by
  induction users with
  | nil => rfl
  | cons v rest ih =>
    have hv : v.chat_id ≠ cid := h v (by simp)
    have hr := ih (fun w hw => h w (by simp [hw]))
    simp [update_user_state_to_completed, hv, hr]

/-- Processing one waiting session whose chat resolves to it in the current
store yields the expected document and notifications. -/
theorem process_one_at (inv : List InviteDoc) (users : List UserDoc)
    (u : UserDoc) (now : Nat) (hw : u.state = States.WAITING_PAYMENT)
    (hfind : findUser users u.chat_id = some u) :
    findUser (process_one_waiting true inv users u now).1 u.chat_id =
      some (expectedDoc inv u now) ∧
    (process_one_waiting true inv users u now).2.1.toList =
      List.replicate (expectedNotifCount inv u) u.chat_id := by
  unfold process_one_waiting expectedDoc expectedNotifCount linkedAccount
  cases huid : truthyStr u.uid with
  | none => simp [huid, hfind]
  | some uidv =>
    cases hg : get_user_by_uid inv uidv with
    | none => simp [huid, hg, hfind]
    | some iu =>
      by_cases hb : (18 : Rat) ≤ iu.balanceVolume.getD 0
      · obtain ⟨h1, h2⟩ := update_completed_hit users u.chat_id
          (iu.balanceVolume.getD 0) now u hfind
        have hmod : (update_user_state_to_completed users u.chat_id
            (iu.balanceVolume.getD 0) now).2 = true := by
          rw [h2]
          exact decide_eq_true (completedDoc_ne hw _ now)
        simp [huid, hg, hb, hmod, h1]
      · simp [huid, hg, hb, hfind]

/-- Processing one waiting session leaves every other chat's document alone,
and any message it sends goes to that session's chat. -/
theorem process_one_frame (hasBot : Bool) (inv : List InviteDoc)
    (users : List UserDoc) (bu : UserDoc) (now : Nat) (cid : Nat)
    (h : cid ≠ bu.chat_id) :
    findUser (process_one_waiting hasBot inv users bu now).1 cid =
      findUser users cid ∧
    ∀ c ∈ (process_one_waiting hasBot inv users bu now).2.1.toList,
      c = bu.chat_id := by
  unfold process_one_waiting
  cases huid : truthyStr bu.uid with
  | none => simp
  | some uidv =>
    cases hg : get_user_by_uid inv uidv with
    | none => simp [hg]
    | some iu =>
      by_cases hb : (18 : Rat) ≤ iu.balanceVolume.getD 0
      · have hfr := findUser_update_completed_ne users bu.chat_id cid
          (iu.balanceVolume.getD 0) now h
        by_cases hm : (update_user_state_to_completed users bu.chat_id
            (iu.balanceVolume.getD 0) now).2 = true
        · cases hasBot <;> simp [hg, hb, hm, hfr]
        · simp [hg, hb, hm, hfr]
      · simp [hg, hb]

/-- The sweep loop leaves chats outside the remaining snapshot untouched and
sends them nothing. -/
theorem sweepGo_frame (hasBot : Bool) (inv : List InviteDoc) (now : Nat) :
    ∀ (W users : List UserDoc) (ns : List Nat) (k cid : Nat),
      (∀ w ∈ W, w.chat_id ≠ cid) →
      findUser (sweepGo hasBot inv now W users ns k).users cid =
        findUser users cid ∧
      (sweepGo hasBot inv now W users ns k).notifs.count cid =
        ns.count cid := by
  intro W
  induction W with
  | nil => intro users ns k cid h; exact ⟨rfl, rfl⟩
  | cons bu W ih =>
    intro users ns k cid h
    have hbu : cid ≠ bu.chat_id := fun he => (h bu (by simp)) he.symm
    obtain ⟨hf, hn⟩ := process_one_frame hasBot inv users bu now cid hbu
    obtain ⟨ih1, ih2⟩ := ih (process_one_waiting hasBot inv users bu now).1
      (ns ++ (process_one_waiting hasBot inv users bu now).2.1.toList)
      (k + (process_one_waiting hasBot inv users bu now).2.2) cid
      (fun w hw => h w (by simp [hw]))
    have hz : (process_one_waiting hasBot inv users bu now).2.1.toList.count
        cid = 0 := by
      rw [List.count_eq_zero]
      intro hmem
      exact hbu (hn cid hmem)
    constructor
    · simp only [sweepGo]
      exact ih1.trans hf
    · simp only [sweepGo]
      rw [ih2, List.count_append, hz]
      omega

/-- Through the whole sweep loop, a waiting session of the snapshot (with
chats unique in the snapshot) ends at its expected document and receives its
expected number of completion messages. -/
theorem sweepGo_expected (inv : List InviteDoc) (now : Nat) (u : UserDoc)
    (hw : u.state = States.WAITING_PAYMENT) :
    ∀ (W users : List UserDoc) (ns : List Nat) (k : Nat),
      (W.map UserDoc.chat_id).Nodup → u ∈ W →
      findUser users u.chat_id = some u →
      findUser (sweepGo true inv now W users ns k).users u.chat_id =
        some (expectedDoc inv u now) ∧
      (sweepGo true inv now W users ns k).notifs.count u.chat_id =
        ns.count u.chat_id + expectedNotifCount inv u := by
  intro W
  induction W with
  | nil => intro users ns k hnd hmem hfind; exact absurd hmem (by simp)
  | cons bu W ih =>
    intro users ns k hnd hmem hfind
    have hnd2 : bu.chat_id ∉ List.map UserDoc.chat_id W ∧
        (List.map UserDoc.chat_id W).Nodup := by
      rw [List.map_cons, List.nodup_cons] at hnd
      exact hnd
    rcases List.mem_cons.mp hmem with heq | hmem'
    · subst heq
      obtain ⟨p1, p2⟩ := process_one_at inv users u now hw hfind
      have hnotin : ∀ w ∈ W, w.chat_id ≠ u.chat_id := by
        intro w hwmem he
        exact hnd2.1 (he ▸ List.mem_map_of_mem UserDoc.chat_id hwmem)
      obtain ⟨f1, f2⟩ := sweepGo_frame true inv now W
        (process_one_waiting true inv users u now).1
        (ns ++ (process_one_waiting true inv users u now).2.1.toList)
        (k + (process_one_waiting true inv users u now).2.2) u.chat_id hnotin
      constructor
      · simp only [sweepGo]
        exact f1.trans p1
      · simp only [sweepGo]
        rw [f2, p2, List.count_append, List.count_replicate_self]
    · have hne : bu.chat_id ≠ u.chat_id := by
        intro he
        exact hnd2.1 (he ▸ List.mem_map_of_mem UserDoc.chat_id hmem')
      obtain ⟨hf, hn⟩ := process_one_frame true inv users bu now u.chat_id
        (Ne.symm hne)
      have hz : (process_one_waiting true inv users bu
          now).2.1.toList.count u.chat_id = 0 := by
        rw [List.count_eq_zero]
        intro hmemc
        exact (Ne.symm hne) (hn _ hmemc)
      obtain ⟨ih1, ih2⟩ := ih (process_one_waiting true inv users bu now).1
        (ns ++ (process_one_waiting true inv users bu now).2.1.toList)
        (k + (process_one_waiting true inv users bu now).2.2)
        hnd2.2 hmem' (hf.trans hfind)
      constructor
      · simp only [sweepGo]
        exact ih1
      · simp only [sweepGo]
        rw [ih2, List.count_append, hz]
        omega

/-- Under the unique index on `chat_id`, looking up a stored session's chat
finds that very session. -/
theorem findUser_of_nodup :
    ∀ (users : List UserDoc), (users.map UserDoc.chat_id).Nodup →
      ∀ {u : UserDoc}, u ∈ users → findUser users u.chat_id = some u := by
  intro users
  induction users with
  | nil => intro _ u hu; cases hu
  | cons v rest ih =>
    intro hnd u hu
    have hnd2 : v.chat_id ∉ List.map UserDoc.chat_id rest ∧
        (List.map UserDoc.chat_id rest).Nodup := by
      rw [List.map_cons, List.nodup_cons] at hnd
      exact hnd
    rcases List.mem_cons.mp hu with heq | hm
    · subst heq
      unfold findUser
      rw [List.find?_cons_of_pos _ (by simp)]
    · have hv : v.chat_id ≠ u.chat_id := by
        intro he
        exact hnd2.1 (he ▸ List.mem_map_of_mem UserDoc.chat_id hm)
      unfold findUser
      rw [List.find?_cons_of_neg _ (by simp [hv])]
      exact ih hnd2.2 hm

/-- Case analysis bridging the expected-outcome abbreviations and the
branch-by-branch reading of the sweep. -/
theorem expected_cases (inv : List InviteDoc) (u : UserDoc) (now : Nat)
    (P : UserDoc → Nat → Prop)
    (h : P (expectedDoc inv u now) (expectedNotifCount inv u)) :
    match linkedAccount inv u with
    | none => P u 0
    | some iu =>
      if 18 ≤ iu.balanceVolume.getD 0 then
        P (completedDoc u (iu.balanceVolume.getD 0) now) 1
      else P u 0 := by
  revert h
  unfold expectedDoc expectedNotifCount
  cases linkedAccount inv u with
  | none => intro h; exact h
  | some iu =>
    intro h
    have h2 : P (if 18 ≤ iu.balanceVolume.getD 0 then
        completedDoc u (iu.balanceVolume.getD 0) now else u)
        (if 18 ≤ iu.balanceVolume.getD 0 then 1 else 0) := h
    show if 18 ≤ iu.balanceVolume.getD 0 then
        P (completedDoc u (iu.balanceVolume.getD 0) now) 1
      else P u 0
    by_cases hb : (18 : Rat) ≤ iu.balanceVolume.getD 0
    · rw [if_pos hb, if_pos hb] at h2
      rw [if_pos hb]
      exact h2
    · rw [if_neg hb, if_neg hb] at h2
      rw [if_neg hb]
      exact h2

/-- C1: during one reconciliation sweep (with the notifier bot configured and
the `chat_id` unique index intact), every session snapshotted in
`WAITING_PAYMENT` behaves as specified: without a linked ExternalAccount
record (no truthy uid or no stored invite document under it) it is skipped
and remains exactly as it was (still `WAITING_PAYMENT`), unnotified; with a
linked account of balance strictly below the threshold 18 it also remains
unchanged, with no notification; with balance at or above 18 it is rewritten
to `COMPLETED` carrying the observed balance and a confirmation timestamp,
and exactly one completion message is sent to its chat. -/
theorem c1_reconciliation_sweep_spec (inv : List InviteDoc)
    (users : List UserDoc) (now : Nat)
    (hnd : (users.map UserDoc.chat_id).Nodup)
    (u : UserDoc) (hu : u ∈ users)
    (hw : u.state = States.WAITING_PAYMENT) :
    match linkedAccount inv u with
    | none =>
      findUser (process_waiting_payment_users true inv users now).users
        u.chat_id = some u ∧
      (process_waiting_payment_users true inv users now).notifs.count
        u.chat_id = 0
    | some iu =>
      if 18 ≤ iu.balanceVolume.getD 0 then
        findUser (process_waiting_payment_users true inv users now).users
          u.chat_id = some (completedDoc u (iu.balanceVolume.getD 0) now) ∧
        (process_waiting_payment_users true inv users now).notifs.count
          u.chat_id = 1
      else
        findUser (process_waiting_payment_users true inv users now).users
          u.chat_id = some u ∧
        (process_waiting_payment_users true inv users now).notifs.count
          u.chat_id = 0 := by
  have hWnd : ((users.filter
      (fun v => v.state == States.WAITING_PAYMENT)).map
      UserDoc.chat_id).Nodup :=
    hnd.sublist (List.Sublist.map _ (List.filter_sublist users))
  have hmemW : u ∈ users.filter
      (fun v => v.state == States.WAITING_PAYMENT) :=
    List.mem_filter.mpr ⟨hu, by rw [hw]; rfl⟩
  have hfind := findUser_of_nodup users hnd hu
  have hmain := sweepGo_expected inv now u hw
    (users.filter (fun v => v.state == States.WAITING_PAYMENT)) users [] 0
    hWnd hmemW hfind
  exact expected_cases inv u now
    (fun d n =>
      findUser (process_waiting_payment_users true inv users now).users
        u.chat_id = some d ∧
      (process_waiting_payment_users true inv users now).notifs.count
        u.chat_id = n)
    ⟨hmain.1, by simpa using hmain.2⟩

/-- C1 witness: with balance 25 at or above the threshold, the sweep promotes
chat 42 to the completed document and notifies it exactly once. -/
theorem c1_witness :
    findUser (process_waiting_payment_users true invSweep usersSweep 5).users
        42 =
      some { chat_id := 42, state := States.COMPLETED, name := some "Ali",
             uid := some "AB12345", balanceVolume := some 25,
             payment_confirmed_at := some 5, updated_at := 5 } ∧
    (process_waiting_payment_users true invSweep usersSweep 5).notifs.count
      42 = 1 := by
  have h := c1_reconciliation_sweep_spec invSweep usersSweep 5 (by decide)
    { chat_id := 42, state := States.WAITING_PAYMENT, name := some "Ali",
      uid := some "AB12345" } (by decide) rfl
  exact h

/-- C10: the completion notification and the completed count follow the
update's report.  First: when the threshold branch runs but the state update
reports no modification, the session is not notified and not counted.
Second: when no stored document matches the chat, the update reports no
modification and leaves the store as is.  Third: whenever a notification is
sent, the update did report a modification (and the session was counted). -/
theorem c10_notify_only_on_modified :
    (∀ (hasBot : Bool) (inv : List InviteDoc) (users : List UserDoc)
        (bu : UserDoc) (now : Nat) (uidv : String) (iu : InviteUser),
      truthyStr bu.uid = some uidv →
      get_user_by_uid inv uidv = some iu →
      18 ≤ iu.balanceVolume.getD 0 →
      (update_user_state_to_completed users bu.chat_id
        (iu.balanceVolume.getD 0) now).2 = false →
      process_one_waiting hasBot inv users bu now =
        ((update_user_state_to_completed users bu.chat_id
          (iu.balanceVolume.getD 0) now).1, none, 0)) ∧
    (∀ (users : List UserDoc) (cid : Nat) (bal : Rat) (now : Nat),
      (∀ v ∈ users, v.chat_id ≠ cid) →
      update_user_state_to_completed users cid bal now = (users, false)) ∧
    (∀ (hasBot : Bool) (inv : List InviteDoc) (users : List UserDoc)
        (bu : UserDoc) (now : Nat) (c : Nat),
      (process_one_waiting hasBot inv users bu now).2.1 = some c →
      ∃ uidv iu, truthyStr bu.uid = some uidv ∧
        get_user_by_uid inv uidv = some iu ∧
        18 ≤ iu.balanceVolume.getD 0 ∧
        (update_user_state_to_completed users bu.chat_id
          (iu.balanceVolume.getD 0) now).2 = true ∧
        (process_one_waiting hasBot inv users bu now).2.2 = 1) := by
  refine ⟨?_, ?_, ?_⟩
  · intro hasBot inv users bu now uidv iu huid hg hb hm
    simp [process_one_waiting, huid, hg, hb, hm]
  · intro users cid bal now h
    exact update_completed_nomatch users cid bal now h
  · intro hasBot inv users bu now c hsent
    cases huid : truthyStr bu.uid with
    | none => simp [process_one_waiting, huid] at hsent
    | some uidv =>
      cases hg : get_user_by_uid inv uidv with
      | none => simp [process_one_waiting, huid, hg] at hsent
      | some iu =>
        by_cases hb : (18 : Rat) ≤ iu.balanceVolume.getD 0
        · by_cases hm : (update_user_state_to_completed users bu.chat_id
              (iu.balanceVolume.getD 0) now).2 = true
          · refine ⟨uidv, iu, rfl, hg, hb, hm, ?_⟩
            simp [process_one_waiting, huid, hg, hb, hm]
          · simp [process_one_waiting, huid, hg, hb, hm] at hsent
        · simp [process_one_waiting, huid, hg, hb] at hsent

/-- C10 witness: with no stored session for chat 99, the update reports no
modification, and processing that phantom waiting session sends no
notification and counts nothing -- even though its linked account holds
balance 25. -/
theorem c10_witness :
    update_user_state_to_completed [] 99 25 5 = ([], false) ∧
    process_one_waiting true invSweep []
      { chat_id := 99, state := States.WAITING_PAYMENT,
        uid := some "AB12345" } 5 = ([], none, 0) :=
  ⟨c10_notify_only_on_modified.2.1 [] 99 25 5 (by simp),
   c10_notify_only_on_modified.1 true invSweep []
     { chat_id := 99, state := States.WAITING_PAYMENT,
       uid := some "AB12345" } 5 "AB12345"
     { uid := some "AB12345", balanceVolume := some 25 }
     rfl rfl (by decide) rfl⟩

/-- Unfolding equation for one loop round, with the empty-list tests written
as equations. -/
theorem fetchGo_cons (known : String → Bool) (p : FPage) (rest : List FPage)
    (allData : List InviteUser) (counter : Nat) :
    fetchGo known (p :: rest) allData counter =
      if p.list = [] then (allData, 1)
      else if consecutive_existing_threshold ≤
          (processItems known p.list counter).2 then
        (allData ++ (processItems known p.list counter).1, 1)
      else if (processItems known p.list counter).1 = [] then
        (allData ++ (processItems known p.list counter).1, 1)
      else if p.total.getD
            (allData ++ (processItems known p.list counter).1).length ≤
          (allData ++ (processItems known p.list counter).1).length then
        (allData ++ (processItems known p.list counter).1, 1)
      else
        ((fetchGo known rest (allData ++ (processItems known p.list counter).1)
            (processItems known p.list counter).2).1,
         (fetchGo known rest (allData ++ (processItems known p.list counter).1)
            (processItems known p.list counter).2).2 + 1) := by
  simp only [fetchGo, List.isEmpty_iff]

/-- As long as responses keep coming, each loop round fetches at least one
page. -/
theorem fetchGo_pos (known : String → Bool) (pages : List FPage)
    (allData : List InviteUser) (counter : Nat) (h : pages ≠ []) :
    1 ≤ (fetchGo known pages allData counter).2 := by
  cases pages with
  | nil => exact absurd rfl h
  | cons p rest =>
    rw [fetchGo_cons]
    by_cases h1 : p.list = []
    · rw [if_pos h1]
    · rw [if_neg h1]
      by_cases h2 : consecutive_existing_threshold ≤
          (processItems known p.list counter).2
      · rw [if_pos h2]
      · rw [if_neg h2]
        by_cases h3 : (processItems known p.list counter).1 = []
        · rw [if_pos h3]
        · rw [if_neg h3]
          by_cases h4 : p.total.getD
              (allData ++ (processItems known p.list counter).1).length ≤
              (allData ++ (processItems known p.list counter).1).length
          · rw [if_pos h4]
          · rw [if_neg h4]
            exact Nat.le_add_left 1 _

/-- C6 (amended): the consecutive-existing stop rule of `fetch_all_users` is
evaluated only at page boundaries.  After fetching a page, the loop stops
exactly when the page's list was empty, or the counter of consecutive
already-known records (running across pages, reset by every unknown record)
is at or above the threshold at the end of the page, or the page contributed
no new records at all (even with the counter below the threshold), or the
accumulated record count reached the provider total; otherwise it continues
into the following pages.  In particular, at most threshold-minus-1
consecutive known records alone do not guarantee continuation: a page made
entirely of known records also stops the loop. -/
theorem c6_amended_pagination_stop_iff (known : String → Bool) (p : FPage)
    (rest : List FPage) (allData : List InviteUser) (counter : Nat)
    (hrest : rest ≠ []) :
    ((fetchGo known (p :: rest) allData counter).2 = 1 ↔
      (p.list = [] ∨
       consecutive_existing_threshold ≤ (processItems known p.list counter).2 ∨
       (processItems known p.list counter).1 = [] ∨
       p.total.getD (allData ++ (processItems known p.list counter).1).length ≤
         (allData ++ (processItems known p.list counter).1).length)) ∧
    (¬ (p.list = [] ∨
        consecutive_existing_threshold ≤
          (processItems known p.list counter).2 ∨
        (processItems known p.list counter).1 = [] ∨
        p.total.getD
            (allData ++ (processItems known p.list counter).1).length ≤
          (allData ++ (processItems known p.list counter).1).length) →
      (fetchGo known (p :: rest) allData counter).2 =
        (fetchGo known rest (allData ++ (processItems known p.list counter).1)
          (processItems known p.list counter).2).2 + 1) := by
  have hcont : ∀ hne : ¬ p.list = [],
      ∀ hth : ¬ consecutive_existing_threshold ≤
        (processItems known p.list counter).2,
      ∀ hnew : ¬ (processItems known p.list counter).1 = [],
      ∀ htot : ¬ p.total.getD
          (allData ++ (processItems known p.list counter).1).length ≤
        (allData ++ (processItems known p.list counter).1).length,
      (fetchGo known (p :: rest) allData counter).2 =
        (fetchGo known rest (allData ++ (processItems known p.list counter).1)
          (processItems known p.list counter).2).2 + 1 := by
    intro hne hth hnew htot
    rw [fetchGo_cons, if_neg hne, if_neg hth, if_neg hnew, if_neg htot]
  constructor
  · constructor
    · intro h1
      by_contra hcon
      push_neg at hcon
      obtain ⟨hne, hth, hnew, htot⟩ := hcon
      rw [hcont hne (by omega) hnew (by omega)] at h1
      have := fetchGo_pos known rest
        (allData ++ (processItems known p.list counter).1)
        (processItems known p.list counter).2 hrest
      omega
    · intro h
      rcases h with h | h | h | h
      · rw [fetchGo_cons, if_pos h]
      · by_cases hne : p.list = []
        · rw [fetchGo_cons, if_pos hne]
        · rw [fetchGo_cons, if_neg hne, if_pos h]
      · by_cases hne : p.list = []
        · rw [fetchGo_cons, if_pos hne]
        · by_cases hth : consecutive_existing_threshold ≤
              (processItems known p.list counter).2
          · rw [fetchGo_cons, if_neg hne, if_pos hth]
          · rw [fetchGo_cons, if_neg hne, if_neg hth, if_pos h]
      · by_cases hne : p.list = []
        · rw [fetchGo_cons, if_pos hne]
        · by_cases hth : consecutive_existing_threshold ≤
              (processItems known p.list counter).2
          · rw [fetchGo_cons, if_neg hne, if_pos hth]
          · by_cases hnew : (processItems known p.list counter).1 = []
            · rw [fetchGo_cons, if_neg hne, if_neg hth, if_pos hnew]
            · rw [fetchGo_cons, if_neg hne, if_neg hth, if_neg hnew,
                if_pos h]
  · intro hcon
    push_neg at hcon
    obtain ⟨hne, hth, hnew, htot⟩ := hcon
    exact hcont hne (by omega) hnew (by omega)

/-- C6 counterexample: after a nonempty page of 5 consecutive already-known
records -- below the threshold of 10, counter never reset, provider total
1000 far from reached, sentinel absent in this variant -- the loop
nevertheless stops after that first page (it never requests the waiting
second page), because a page contributing no new records terminates
pagination.  This refutes the claim that with at most N-1 consecutive
already-known records and no other stop condition the loop continues. -/
theorem c6_counterexample :
    (processItems knownFive pageKnown.list 0).2 = 5 ∧
    (processItems knownFive pageKnown.list 0).1 = [] ∧
    ¬ consecutive_existing_threshold ≤ 5 ∧
    pageKnown.list ≠ [] ∧
    pageKnown.total = some 1000 ∧
    (fetch_all_users knownFive [pageKnown, pageNext]).2 = 1 :=
  ⟨rfl, rfl, by decide, by decide, rfl, rfl⟩

/-- C6 witness: a page with one unknown record (counter 0, total unreached)
does continue to the next page, so two pages are fetched. -/
theorem c6_witness :
    (fetch_all_users knownFive [pageNext, pageNext]).2 = 2 := by
  have h := (c6_amended_pagination_stop_iff knownFive pageNext [pageNext]
    [] 0 (by decide)).2 (by decide)
  have h2 : (fetchGo knownFive [pageNext]
      ([] ++ (processItems knownFive pageNext.list 0).1)
      (processItems knownFive pageNext.list 0).2).2 = 1 := by decide
  show (fetchGo knownFive [pageNext, pageNext] [] 0).2 = 2
  rw [h, h2]
